import Mathlib

/-!
Verification development for the `systat` dashboard core (package `cmd`).

The definitions below are a shallow embedding of the interactive dashboard
found in `cmd/network_linux.go` (the fuller variant: `model`, `initialModel`,
`model.Update`, `model.updateStats`, `model.updateTables`,
`model.networkDetailView`) together with the layout branch of
`cmd/dashboard.go` (`model.View`) and the process listing of
`cmd/process.go` (`showProcessInfo` / `showRawProcessInfo`).

Modelling conventions:
* gopsutil / netlink / bubbles are external collaborators.  Their results
  arrive as explicit inputs (`StatResults`, interface lists), and the bubbles
  `table.Model` is modelled by `TableModel`: rows, cursor, height and a
  focused flag, with navigation clamping the cursor into range.
* Go maps keyed by strings are modelled as association lists with
  insert-replace semantics (`insertEntry` / `lookupEntry`); only lookup and
  per-key update are ever used by the embedded code, so iteration order of
  the Go map is never observable here.
* Float64 percentages are modelled as rationals; the `%.1f` formatting of a
  percentage cell followed by the `Sscanf` re-parse in the disk sort
  comparator is modelled by rounding to one decimal (`round1`).
* Asynchronous `tea.Cmd` completions (`updateStats`, DNS/ping checks) are
  delivered as messages carrying the fetched data, mirroring the
  message-driven bubbletea loop.
-/

namespace Systat

/-- `load.AvgStat` as used by the dashboard (1/5/15 minute load averages). -/
structure LoadAvgStat where
  load1 : ℚ
  load5 : ℚ
  load15 : ℚ
deriving DecidableEq, Repr

/-- The fields of `mem.VirtualMemoryStat` the dashboard reads. -/
structure VirtualMemoryStat where
  used : ℕ
  total : ℕ
  usedPercent : ℚ
deriving DecidableEq, Repr

/-- The fields of `mem.SwapMemoryStat` the dashboard reads. -/
structure SwapMemoryStat where
  used : ℕ
  total : ℕ
  usedPercent : ℚ
deriving DecidableEq, Repr

/-- The fields of `disk.IOCountersStat` the dashboard stores. -/
structure IOCountersStat where
  readBytes : ℕ
  writeBytes : ℕ
deriving DecidableEq, Repr

/-- The fields of `disk.PartitionStat` the dashboard reads. -/
structure PartitionStat where
  device : String
  mountpoint : String
deriving DecidableEq, Repr

/-- The fields of `disk.UsageStat` the dashboard reads. -/
structure UsageStat where
  used : ℕ
  total : ℕ
  usedPercent : ℚ
deriving DecidableEq, Repr

/-- The fields of `psnet.IOCountersStat` the dashboard reads. -/
structure NetIOCountersStat where
  name : String
  bytesRecv : ℕ
  bytesSent : ℕ
  packetsRecv : ℕ
  packetsSent : ℕ
  errin : ℕ
  errout : ℕ
  dropin : ℕ
  dropout : ℕ
deriving DecidableEq, Repr

/-- One entry of `net.Interfaces()` as consumed by `updateTables`: the
interface name and its already-filtered IPv4 addresses. -/
structure NetIface where
  name : String
  ipv4s : List String
deriving DecidableEq, Repr

/-- A `statusCheck` from `network_linux.go`: a health-check name and its
last known boolean status. -/
structure StatusCheck where
  name : String
  status : Bool
deriving DecidableEq, Repr

/-! ### Association-list model of Go string-keyed maps -/

/-- Go `m[k] = v`: insert or replace the binding for `k`. -/
def insertEntry {β : Type} : List (String × β) → String → β → List (String × β)
  | [], k, v => [(k, v)]
  | (k', v') :: rest, k, v =>
      if k' = k then (k, v) :: rest else (k', v') :: insertEntry rest k v

/-- Go `v, ok := m[k]`: look up the binding for `k`. -/
def lookupEntry {β : Type} : List (String × β) → String → Option β
  | [], _ => none
  | (k', v) :: rest, k => if k' = k then some v else lookupEntry rest k

/-! ### The bubbles table component (external collaborator) -/

/-- The slice of bubbles `table.Model` state the dashboard observes: rows,
cursor position, viewport height and the focused flag. -/
structure TableModel (α : Type) where
  rows : List α
  cursor : ℕ
  height : ℕ
  focused : Bool
deriving DecidableEq, Repr

/-- `table.Model.SetRows`. -/
def TableModel.setRows {α : Type} (t : TableModel α) (r : List α) : TableModel α :=
  { t with rows := r }

/-- `table.Model.SetHeight`. -/
def TableModel.setHeight {α : Type} (t : TableModel α) (h : ℕ) : TableModel α :=
  { t with height := h }

/-- `table.Model.Focus`. -/
def TableModel.focus {α : Type} (t : TableModel α) : TableModel α :=
  { t with focused := true }

/-- `table.Model.Blur`. -/
def TableModel.blur {α : Type} (t : TableModel α) : TableModel α :=
  { t with focused := false }

/-- `table.Model.SelectedRow`: the row under the cursor, or nothing when the
cursor is out of range (the Go code then sees a zero-length row). -/
def TableModel.selectedRow? {α : Type} (t : TableModel α) : Option α :=
  t.rows.get? t.cursor

/-- The navigation keys forwarded to the focused table. -/
inductive NavKey where
  | up
  | down
  | pageUp
  | pageDown
  | homeKey
  | endKey
deriving DecidableEq, Repr

/-- Cursor movement of the bubbles table for one navigation key: moves by
one line or one page and clamps into the row range (`MoveUp`, `MoveDown`,
`GotoTop`, `GotoBottom`). -/
def TableModel.navCursor {α : Type} (t : TableModel α) (k : NavKey) : ℕ :=
  let last := t.rows.length - 1
  match k with
  | .up => min (t.cursor - 1) last
  | .down => min (t.cursor + 1) last
  | .pageUp => min (t.cursor - t.height) last
  | .pageDown => min (t.cursor + t.height) last
  | .homeKey => 0
  | .endKey => last

/-- `table.Model.Update` for a navigation key: only the cursor moves. -/
def TableModel.moveCursor {α : Type} (t : TableModel α) (k : NavKey) : TableModel α :=
  { t with cursor := t.navCursor k }

/-! ### Rendered rows (typed images of the `table.Row` string rows) -/

/-- Rounding to one decimal place: the value carried by a `%.1f` formatted
percentage cell, as re-read by `Sscanf` in the disk sort comparator. -/
def round1 (q : ℚ) : ℚ :=
  ((q * 10 + 1 / 2).floor : ℚ) / 10

/-- A row of the CPU table: core index and usage percentage. -/
structure CpuRow where
  core : ℕ
  usage : ℚ
deriving DecidableEq, Repr

/-- A row of the memory table (RAM or Swap). -/
structure MemRow where
  kind : String
  used : ℕ
  total : ℕ
  usedPercent : ℚ
deriving DecidableEq, Repr

/-- A row of the disk table.  `usedPercent` holds the value of the formatted
`Used%` cell, i.e. the usage percentage rounded to one decimal. -/
structure DiskRow where
  device : String
  mount : String
  used : ℕ
  total : ℕ
  usedPercent : ℚ
deriving DecidableEq, Repr

/-- A row of the network table: interface name (column 0), IPv4 addresses,
received and sent bytes. -/
structure NetRow where
  iface : String
  ipv4s : List String
  rx : ℕ
  tx : ℕ
deriving DecidableEq, Repr

/-- A row of the status table. -/
structure StatusRow where
  service : String
  ok : Bool
deriving DecidableEq, Repr

/-- The `sort.Slice` comparator of `updateTables` as a relation: row `a`
comes before row `b` when its parsed percentage is at least `b`'s. -/
def diskRowGE (a b : DiskRow) : Prop :=
  b.usedPercent ≤ a.usedPercent

instance : DecidableRel diskRowGE := fun a b =>
  inferInstanceAs (Decidable (b.usedPercent ≤ a.usedPercent))

instance : IsTotal DiskRow diskRowGE :=
  ⟨fun a b => le_total b.usedPercent a.usedPercent⟩

instance : IsTrans DiskRow diskRowGE :=
  ⟨fun _ _ _ h1 h2 => le_trans h2 h1⟩

/-! ### The dashboard model (`network_linux.go`) -/

/-- `viewMode`. -/
inductive ViewMode where
  | dashboardView
  | networkDetailView
deriving DecidableEq, Repr

/-- `focusedTable`. -/
inductive FocusedTable where
  | cpuTableFocus
  | diskTableFocus
  | netTableFocus
deriving DecidableEq, Repr

/-- `(m.focusedTable + 1) % 3`. -/
def nextFocus : FocusedTable → FocusedTable
  | .cpuTableFocus => .diskTableFocus
  | .diskTableFocus => .netTableFocus
  | .netTableFocus => .cpuTableFocus

/-- The `model` struct of `network_linux.go`.  `lastUpdate` is an abstract
timestamp. -/
structure Model where
  cpuPercents : List ℚ
  loadAvg : Option LoadAvgStat
  memory : Option VirtualMemoryStat
  swap : Option SwapMemoryStat
  diskStats : List (String × IOCountersStat)
  diskPartitions : List PartitionStat
  diskUsage : List (String × UsageStat)
  netStats : List (String × NetIOCountersStat)
  statusChecks : List StatusCheck
  width : ℕ
  height : ℕ
  lastUpdate : ℕ
  diskTable : TableModel DiskRow
  cpuTable : TableModel CpuRow
  memTable : TableModel MemRow
  netTable : TableModel NetRow
  statusTable : TableModel StatusRow
  focusedTable : FocusedTable
  currentView : ViewMode
  selectedIface : String
deriving DecidableEq, Repr

/-- `initialModel`: empty stat maps and slices, the CPU table created with
`WithFocused(true)` and the others blurred, focus on the CPU table, the
dashboard view current, and the zero value for `selectedIface`.  The memory
table is created without `WithHeight` (bubbles default height 20). -/
def initialModel : Model where
  cpuPercents := []
  loadAvg := none
  memory := none
  swap := none
  diskStats := []
  diskPartitions := []
  diskUsage := []
  netStats := []
  statusChecks := []
  width := 0
  height := 0
  lastUpdate := 0
  diskTable := { rows := [], cursor := 0, height := 6, focused := false }
  cpuTable := { rows := [], cursor := 0, height := 6, focused := true }
  memTable := { rows := [], cursor := 0, height := 20, focused := false }
  netTable := { rows := [], cursor := 0, height := 6, focused := false }
  statusTable := { rows := [], cursor := 0, height := 4, focused := false }
  focusedTable := .cpuTableFocus
  currentView := .dashboardView
  selectedIface := ""

/-! ### The per-tick adapter results and `updateStats` -/

/-- The results of one tick's adapter invocations, as consumed by
`updateStats`.  A `none` models the corresponding gopsutil call returning an
error; `diskUsage` is the per-mount-point `disk.Usage` fetch.  `interfaces`
is the `net.Interfaces()` listing read by `updateTables`. -/
structure StatResults where
  cpuPercent : Option (List ℚ)
  loadAvg : Option LoadAvgStat
  virtualMemory : Option VirtualMemoryStat
  swapMemory : Option SwapMemoryStat
  diskIOCounters : Option (List (String × IOCountersStat))
  diskPartitions : Option (List PartitionStat)
  diskUsage : String → Option UsageStat
  netIOCounters : Option (List NetIOCountersStat)
  interfaces : List NetIface

/-- The `diskUsage` map update of `updateStats`: for each listed partition,
insert a successfully fetched usage under its mount point; failed fetches
leave the map untouched. -/
def updateUsage (base : List (String × UsageStat)) (ps : List PartitionStat)
    (fetch : String → Option UsageStat) : List (String × UsageStat) :=
  ps.foldl
    (fun acc p =>
      match fetch p.mountpoint with
      | some u => insertEntry acc p.mountpoint u
      | none => acc)
    base

/-- The `netStats` map update of `updateStats`: insert each returned counter
record under its interface name (earlier entries for other names persist). -/
def insertNetStats (base : List (String × NetIOCountersStat))
    (stats : List NetIOCountersStat) : List (String × NetIOCountersStat) :=
  stats.foldl (fun acc s => insertEntry acc s.name s) base

/-- The stat-assignment block of `updateStats`: each `if ..., err == nil`
statement overwrites its field only when the adapter succeeded, otherwise
the previous value is kept; the `diskUsage` and `netStats` maps are updated
entry by entry. -/
def applyStats (r : StatResults) (m : Model) : Model :=
  { m with
    cpuPercents :=
      match r.cpuPercent with
      | some v => v
      | none => m.cpuPercents
    loadAvg :=
      match r.loadAvg with
      | some v => some v
      | none => m.loadAvg
    memory :=
      match r.virtualMemory with
      | some v => some v
      | none => m.memory
    swap :=
      match r.swapMemory with
      | some v => some v
      | none => m.swap
    diskStats :=
      match r.diskIOCounters with
      | some v => v
      | none => m.diskStats
    diskPartitions :=
      match r.diskPartitions with
      | some v => v
      | none => m.diskPartitions
    diskUsage :=
      match r.diskPartitions with
      | some ps => updateUsage m.diskUsage ps r.diskUsage
      | none => m.diskUsage
    netStats :=
      match r.netIOCounters with
      | some stats => insertNetStats m.netStats stats
      | none => m.netStats }

/-! ### `updateTables` -/

/-- The CPU rows: one row per logical core. -/
def cpuRowsOf (m : Model) : List CpuRow :=
  m.cpuPercents.enum.map fun p => { core := p.1, usage := p.2 }

/-- The memory rows: a RAM row and a Swap row when present. -/
def memRowsOf (m : Model) : List MemRow :=
  (match m.memory with
    | some v => [{ kind := "RAM", used := v.used, total := v.total,
                   usedPercent := v.usedPercent }]
    | none => []) ++
  (match m.swap with
    | some s => [{ kind := "Swap", used := s.used, total := s.total,
                   usedPercent := s.usedPercent }]
    | none => [])

/-- The unsorted disk rows: one row per listed partition whose mount point
has an entry in the `diskUsage` map; the `Used%` cell carries the usage
percentage rounded to one decimal (`%.1f`). -/
def diskRowsRaw (m : Model) : List DiskRow :=
  m.diskPartitions.filterMap fun p =>
    (lookupEntry m.diskUsage p.mountpoint).map fun u =>
      { device := p.device, mount := p.mountpoint, used := u.used,
        total := u.total, usedPercent := round1 u.usedPercent }

/-- The disk rows after the `sort.Slice` call, sorted descending by the
parsed percentage of the `Used%` cell. -/
def diskRowsOf (m : Model) : List DiskRow :=
  List.insertionSort diskRowGE (diskRowsRaw m)

/-- The network rows: one row per interface of `net.Interfaces()` that has
an entry in the `netStats` map. -/
def netRowsOf (ifaces : List NetIface) (m : Model) : List NetRow :=
  ifaces.filterMap fun i =>
    (lookupEntry m.netStats i.name).map fun s =>
      { iface := s.name, ipv4s := i.ipv4s, rx := s.bytesRecv, tx := s.bytesSent }

/-- The status rows: one row per health check. -/
def statusRowsOf (m : Model) : List StatusRow :=
  m.statusChecks.map fun c => { service := c.name, ok := c.status }

/-- `model.updateTables`: rebuild all table rows from the current stats
(the interface listing is the `net.Interfaces()` call made inside it) and
set the memory table's height to its row count. -/
def updateTables (ifaces : List NetIface) (m : Model) : Model :=
  { m with
    cpuTable := m.cpuTable.setRows (cpuRowsOf m)
    memTable := (m.memTable.setRows (memRowsOf m)).setHeight (memRowsOf m).length
    diskTable := m.diskTable.setRows (diskRowsOf m)
    netTable := m.netTable.setRows (netRowsOf ifaces m)
    statusTable := m.statusTable.setRows (statusRowsOf m) }

/-- `model.updateStats`: apply one tick's adapter results and rebuild the
tables.  The function is total: no adapter failure aborts it. -/
def updateStats (r : StatResults) (m : Model) : Model :=
  updateTables r.interfaces (applyStats r m)

/-! ### The event dispatcher (`model.Update`) -/

/-- The commands `model.Update` can return, abstracted: nothing, `tea.Quit`,
the tick batch (re-arm tick, `updateStats`, DNS and ping checks), or a
command bubbled up from the focused table. -/
inductive CmdAction where
  | noCmd
  | quitCmd
  | tickBatch
  | tableCmd
deriving DecidableEq, Repr

/-- The messages of the dashboard loop.  `statsDone` delivers the completion
of the asynchronous `updateStats` command with that tick's adapter results;
`dnsCheck` and `pingCheck` carry the probe outcome together with the
`net.Interfaces()` listing their `updateTables` call reads; `keyOther` is
any key not handled by the switch. -/
inductive Msg where
  | keyQuit
  | keyEsc
  | keyEnter
  | keyTab
  | keyNav (k : NavKey)
  | keyOther
  | windowSize (w h : ℕ)
  | tick (t : ℕ)
  | statsDone (r : StatResults)
  | dnsCheck (host : String) (status : Bool) (ifaces : List NetIface)
  | pingCheck (host : String) (status : Bool) (ifaces : List NetIface)

/-- The `dnsCheckMsg`/`pingCheckMsg` handler loop: set the status of the
first check whose name matches, leaving every other entry unchanged. -/
def setCheck : List StatusCheck → String → Bool → List StatusCheck
  | [], _, _ => []
  | c :: rest, host, st =>
      if c.name = host then { c with status := st } :: rest
      else c :: setCheck rest host st

/-- The `tab` branch: record the new focused table and call `Focus` on it
and `Blur` on the other two. -/
def setFocus (f : FocusedTable) (m : Model) : Model :=
  match f with
  | .cpuTableFocus =>
      { m with focusedTable := f, cpuTable := m.cpuTable.focus,
               diskTable := m.diskTable.blur, netTable := m.netTable.blur }
  | .diskTableFocus =>
      { m with focusedTable := f, diskTable := m.diskTable.focus,
               cpuTable := m.cpuTable.blur, netTable := m.netTable.blur }
  | .netTableFocus =>
      { m with focusedTable := f, netTable := m.netTable.focus,
               cpuTable := m.cpuTable.blur, diskTable := m.diskTable.blur }

/-- The navigation branch: forward the key to the currently focused table. -/
def forwardNav (k : NavKey) (m : Model) : Model :=
  match m.focusedTable with
  | .cpuTableFocus => { m with cpuTable := m.cpuTable.moveCursor k }
  | .diskTableFocus => { m with diskTable := m.diskTable.moveCursor k }
  | .netTableFocus => { m with netTable := m.netTable.moveCursor k }

/-- `model.Update` of `network_linux.go`, one step of the event loop. -/
def update (msg : Msg) (m : Model) : Model × CmdAction :=
  match msg with
  | .keyQuit => (m, .quitCmd)
  | .keyEsc =>
      if m.currentView = .networkDetailView then
        ({ m with currentView := .dashboardView }, .noCmd)
      else (m, .noCmd)
  | .keyEnter =>
      if m.focusedTable = .netTableFocus ∧ m.currentView = .dashboardView then
        match m.netTable.selectedRow? with
        | some row =>
            ({ m with selectedIface := row.iface,
                      currentView := .networkDetailView }, .noCmd)
        | none => (m, .noCmd)
      else (m, .noCmd)
  | .keyTab =>
      if m.currentView = .dashboardView then
        (setFocus (nextFocus m.focusedTable) m, .noCmd)
      else (m, .noCmd)
  | .keyNav k =>
      if m.currentView = .dashboardView then (forwardNav k m, .tableCmd)
      else (m, .noCmd)
  | .keyOther => (m, .noCmd)
  | .windowSize w h => ({ m with width := w, height := h }, .noCmd)
  | .tick t => ({ m with lastUpdate := t }, .tickBatch)
  | .statsDone r => (updateStats r m, .noCmd)
  | .dnsCheck host status ifaces =>
      (updateTables ifaces
        { m with statusChecks := setCheck m.statusChecks host status }, .noCmd)
  | .pingCheck host status ifaces =>
      (updateTables ifaces
        { m with statusChecks := setCheck m.statusChecks ("ping " ++ host) status },
       .noCmd)

/-- The models reachable by the event loop from `initialModel`. -/
inductive Reach : Model → Prop where
  | init : Reach initialModel
  | step (m : Model) (msg : Msg) : Reach m → Reach (update msg m).1

/-! ### The layout of `model.View` in `dashboard.go`

The `View` of `dashboard.go` chooses between two arrangements based on the
terminal width.  Rendering of the individual sections is delegated to
lipgloss; what the code decides is the join structure, modelled as a tree:
`lipgloss.JoinHorizontal`/`JoinVertical` with more than two arguments are
right-nested binary joins here. -/

/-- The dashboard's rendered sections. -/
inductive Sect where
  | cpu
  | mem
  | disks
  | net
deriving DecidableEq, Repr

/-- The join structure of the rendered dashboard. -/
inductive Layout where
  | leaf (s : Sect)
  | loading
  | hjoin (a b : Layout)
  | vjoin (a b : Layout)
deriving DecidableEq, Repr

/-- `true` when the layout contains no horizontal join, i.e. every section
is stacked vertically. -/
def Layout.verticalOnly : Layout → Bool
  | .leaf _ => true
  | .loading => true
  | .hjoin _ _ => false
  | .vjoin a b => a.verticalOnly && b.verticalOnly

/-- `minColumnWidth` of `model.View` in `dashboard.go`. -/
def minColumnWidth : ℕ := 85

/-- The layout decision of `model.View` in `dashboard.go`: `"Loading..."`
at width 0; otherwise the CPU and Memory sections joined horizontally as
the top row, with the Disk and Network sections stacked vertically below it
when the width is under `minColumnWidth * 2` and joined horizontally into a
bottom row otherwise. -/
def dashboardViewLayout (width : ℕ) : Layout :=
  if width = 0 then .loading
  else
    let topRow := Layout.hjoin (.leaf .cpu) (.leaf .mem)
    if width < minColumnWidth * 2 then
      .vjoin topRow (.vjoin (.leaf .disks) (.leaf .net))
    else
      .vjoin topRow (.hjoin (.leaf .disks) (.leaf .net))

/-! ### The process listing of `process.go` -/

/-- One process as read by `showProcessInfo`: the per-field fetches default
to `0` / `"unknown"` on error, which is already folded into these fields. -/
structure ProcessInfo where
  pid : ℤ
  name : String
  cpuPercent : ℚ
  memPercent : ℚ
  status : String
  username : String
  cmdline : String
deriving DecidableEq, Repr

/-- The `sort.Slice` comparator of `showProcessInfo`: higher CPU usage
first. -/
def procGE (a b : ProcessInfo) : Prop :=
  b.cpuPercent ≤ a.cpuPercent

instance : DecidableRel procGE := fun a b =>
  inferInstanceAs (Decidable (b.cpuPercent ≤ a.cpuPercent))

instance : IsTotal ProcessInfo procGE :=
  ⟨fun a b => le_total b.cpuPercent a.cpuPercent⟩

instance : IsTrans ProcessInfo procGE :=
  ⟨fun _ _ _ h1 h2 => le_trans h2 h1⟩

/-- The CPU-descending sort of the process list. -/
def sortByCpu (ps : List ProcessInfo) : List ProcessInfo :=
  List.insertionSort procGE ps

/-- The Go slice expression `s[:n]`: the first `n` elements, out of range
(a run-time panic) when `n` exceeds the slice's length. -/
def sliceTo {α : Type} (n : ℕ) (l : List α) : Option (List α) :=
  if n ≤ l.length then some (l.take n) else none

/-- A rendered process row; the command line is truncated to 37 characters
plus an ellipsis when longer than 40. -/
structure ProcRow where
  pid : ℤ
  name : String
  cpuPercent : ℚ
  memPercent : ℚ
  status : String
  username : String
  cmdline : String
deriving DecidableEq, Repr

/-- The row built for one process by `showProcessInfo`. -/
def mkProcRow (p : ProcessInfo) : ProcRow where
  pid := p.pid
  name := p.name
  cpuPercent := p.cpuPercent
  memPercent := p.memPercent
  status := p.status
  username := p.username
  cmdline :=
    if 40 < p.cmdline.length then p.cmdline.take 37 ++ "..." else p.cmdline

/-- The row-building loop of `showProcessInfo` (and the printing loop of
`showRawProcessInfo`): sort by CPU usage and render `processes[:20]`;
`none` models the out-of-range panic of the slice expression. -/
def showProcessRows (ps : List ProcessInfo) : Option (List ProcRow) :=
  (sliceTo 20 (sortByCpu ps)).map (List.map mkProcRow)

/-! ### Focus-state helpers -/

/-- The focus flags the `tab` branch establishes for a given focused
table. -/
def flagsOf : FocusedTable → Bool × Bool × Bool
  | .cpuTableFocus => (true, false, false)
  | .diskTableFocus => (false, true, false)
  | .netTableFocus => (false, false, true)

/-- The focused flags of the three focusable tables. -/
def focusFlags (m : Model) : Bool × Bool × Bool :=
  (m.cpuTable.focused, m.diskTable.focused, m.netTable.focused)

/-- The table flags agree with the `focusedTable` tag. -/
def focusConsistent (m : Model) : Prop :=
  focusFlags m = flagsOf m.focusedTable

/-- Exactly one of the CPU, Disk and Network tables is focused. -/
def exactlyOneFocused (m : Model) : Prop :=
  focusFlags m = (true, false, false) ∨ focusFlags m = (false, true, false) ∨
    focusFlags m = (false, false, true)

theorem updateTables_statusChecks (ifs : List NetIface) (m : Model) :
    (updateTables ifs m).statusChecks = m.statusChecks := rfl

theorem updateTables_currentView (ifs : List NetIface) (m : Model) :
    (updateTables ifs m).currentView = m.currentView := rfl

theorem updateTables_focusedTable (ifs : List NetIface) (m : Model) :
    (updateTables ifs m).focusedTable = m.focusedTable := rfl

theorem focusFlags_updateTables (ifs : List NetIface) (m : Model) :
    focusFlags (updateTables ifs m) = focusFlags m := rfl

theorem setFocus_currentView (f : FocusedTable) (m : Model) :
    (setFocus f m).currentView = m.currentView := by
  cases f <;> rfl

theorem setFocus_focusedTable (f : FocusedTable) (m : Model) :
    (setFocus f m).focusedTable = f := by
  cases f <;> rfl

theorem setFocus_statusChecks (f : FocusedTable) (m : Model) :
    (setFocus f m).statusChecks = m.statusChecks := by
  cases f <;> rfl

theorem focusFlags_setFocus (f : FocusedTable) (m : Model) :
    focusFlags (setFocus f m) = flagsOf f := by
  cases f <;> rfl

theorem forwardNav_statusChecks (k : NavKey) (m : Model) :
    (forwardNav k m).statusChecks = m.statusChecks := by
  unfold forwardNav
  cases m.focusedTable <;> rfl

theorem forwardNav_focusedTable (k : NavKey) (m : Model) :
    (forwardNav k m).focusedTable = m.focusedTable := by
  unfold forwardNav
  cases m.focusedTable <;> rfl

theorem focusFlags_forwardNav (k : NavKey) (m : Model) :
    focusFlags (forwardNav k m) = focusFlags m := by
  unfold forwardNav
  cases m.focusedTable <;> rfl

/-- Every reachable model keeps the table focus flags consistent with the
`focusedTable` tag and — because `initialModel` creates `statusChecks`
empty and no code path ever appends to it — an empty health-check set. -/
theorem reach_invariant (m : Model) (h : Reach m) :
    focusConsistent m ∧ m.statusChecks = [] := by
  induction h with
  | init => exact ⟨rfl, rfl⟩
  | step m msg hm ih =>
    obtain ⟨hf, hs⟩ := ih
    cases msg with
    | keyQuit => exact ⟨hf, hs⟩
    | keyEsc =>
      simp only [update]
      split
      · exact ⟨hf, hs⟩
      · exact ⟨hf, hs⟩
    | keyEnter =>
      simp only [update]
      split
      · split
        · exact ⟨hf, hs⟩
        · exact ⟨hf, hs⟩
      · exact ⟨hf, hs⟩
    | keyTab =>
      simp only [update]
      split
      · constructor
        · show focusFlags _ = flagsOf _
          rw [focusFlags_setFocus, setFocus_focusedTable]
        · rw [setFocus_statusChecks]
          exact hs
      · exact ⟨hf, hs⟩
    | keyNav k =>
      simp only [update]
      split
      · constructor
        · show focusFlags _ = flagsOf _
          rw [focusFlags_forwardNav, forwardNav_focusedTable]
          exact hf
        · rw [forwardNav_statusChecks]
          exact hs
      · exact ⟨hf, hs⟩
    | keyOther => exact ⟨hf, hs⟩
    | windowSize w h => exact ⟨hf, hs⟩
    | tick t => exact ⟨hf, hs⟩
    | statsDone r => exact ⟨hf, hs⟩
    | dnsCheck host status ifaces =>
      constructor
      · exact hf
      · show setCheck m.statusChecks _ _ = []
        rw [hs]
        rfl
    | pingCheck host status ifaces =>
      constructor
      · exact hf
      · show setCheck m.statusChecks _ _ = []
        rw [hs]
        rfl

/-- C3 — code_bug.  `initialModel` creates `statusChecks` as an empty slice
and nothing ever appends to it, so the `dnsCheckMsg` handler's scan finds no
entry: in every reachable model the health-check set is empty, and in
particular delivering the failed DNS result for
`"keycloak.admin.uds.dev"` leaves it empty — no entry ever becomes `false`,
contradicting the claimed update of that entry. -/
theorem statusChecks_never_populated (m : Model) (h : Reach m) :
    m.statusChecks = [] ∧
      (update (.dnsCheck "keycloak.admin.uds.dev" false []) m).1.statusChecks = [] := by
  have hs := (reach_invariant m h).2
  refine ⟨hs, ?_⟩
  show setCheck m.statusChecks _ _ = []
  rw [hs]
  rfl

/-- Witness for C3's theorem at the initial model. -/
theorem statusChecks_never_populated_witness :
    initialModel.statusChecks = [] ∧
      (update (.dnsCheck "keycloak.admin.uds.dev" false [])
        initialModel).1.statusChecks = [] :=
  statusChecks_never_populated initialModel Reach.init

/-- C5 — confirmed.  In every reachable model exactly one of the CPU, Disk
and Network tables is focused, and — while the dashboard view is current —
three `tab` events return both the `focusedTable` tag and the tables' focus
flags to their original values. -/
theorem focus_exactly_one_and_cycle (m : Model) (h : Reach m) :
    exactlyOneFocused m ∧
      (m.currentView = .dashboardView →
        (update .keyTab (update .keyTab (update .keyTab m).1).1).1.focusedTable =
            m.focusedTable ∧
          focusFlags (update .keyTab (update .keyTab (update .keyTab m).1).1).1 =
            focusFlags m) := by
  have hf := (reach_invariant m h).1
  constructor
  · unfold focusConsistent at hf
    cases hft : m.focusedTable <;> rw [hft] at hf
    · exact Or.inl hf
    · exact Or.inr (Or.inl hf)
    · exact Or.inr (Or.inr hf)
  · intro hv
    have step1 : update .keyTab m = (setFocus (nextFocus m.focusedTable) m, .noCmd) := by
      unfold update
      rw [if_pos hv]
    have hv1 : (setFocus (nextFocus m.focusedTable) m).currentView = .dashboardView := by
      rw [setFocus_currentView]
      exact hv
    have step2 : update .keyTab (setFocus (nextFocus m.focusedTable) m) =
        (setFocus (nextFocus (nextFocus m.focusedTable))
          (setFocus (nextFocus m.focusedTable) m), .noCmd) := by
      unfold update
      rw [if_pos hv1, setFocus_focusedTable]
    have hv2 : (setFocus (nextFocus (nextFocus m.focusedTable))
        (setFocus (nextFocus m.focusedTable) m)).currentView = .dashboardView := by
      rw [setFocus_currentView]
      exact hv1
    have step3 : update .keyTab (setFocus (nextFocus (nextFocus m.focusedTable))
        (setFocus (nextFocus m.focusedTable) m)) =
        (setFocus (nextFocus (nextFocus (nextFocus m.focusedTable)))
          (setFocus (nextFocus (nextFocus m.focusedTable))
            (setFocus (nextFocus m.focusedTable) m)), .noCmd) := by
      unfold update
      rw [if_pos hv2, setFocus_focusedTable]
    rw [step1]
    simp only
    rw [step2]
    simp only
    rw [step3]
    simp only
    have h3 : nextFocus (nextFocus (nextFocus m.focusedTable)) = m.focusedTable := by
      cases m.focusedTable <;> rfl
    rw [setFocus_focusedTable, focusFlags_setFocus, h3]
    exact ⟨rfl, hf.symm⟩

/-- Witness for C5's theorem at the initial model. -/
theorem focus_exactly_one_and_cycle_witness :
    exactlyOneFocused initialModel ∧
      (initialModel.currentView = .dashboardView →
        (update .keyTab (update .keyTab (update .keyTab initialModel).1).1).1.focusedTable =
            initialModel.focusedTable ∧
          focusFlags
              (update .keyTab (update .keyTab (update .keyTab initialModel).1).1).1 =
            focusFlags initialModel) :=
  focus_exactly_one_and_cycle initialModel Reach.init

/-! ### View transitions -/

theorem forwardNav_currentView (k : NavKey) (m : Model) :
    (forwardNav k m).currentView = m.currentView := by
  unfold forwardNav
  cases m.focusedTable <;> rfl

theorem updateStats_currentView (r : StatResults) (m : Model) :
    (updateStats r m).currentView = m.currentView := rfl

/-- Case analysis of `model.Update`: a step either leaves the current view
unchanged, or is the `esc` exit from the detail view, or is the `enter`
entry into the detail view from a Network-focused dashboard with a selected
row. -/
theorem update_currentView_cases (msg : Msg) (m : Model) :
    (update msg m).1.currentView = m.currentView ∨
      (msg = .keyEsc ∧ m.currentView = .networkDetailView ∧
        (update msg m).1.currentView = .dashboardView) ∨
      (msg = .keyEnter ∧ m.focusedTable = .netTableFocus ∧
        m.currentView = .dashboardView ∧ m.netTable.selectedRow?.isSome = true ∧
        (update msg m).1.currentView = .networkDetailView) := by
  cases msg with
  | keyEsc =>
    simp only [update]
    split
    · next hv => exact Or.inr (Or.inl ⟨by trivial, hv, rfl⟩)
    · exact Or.inl rfl
  | keyEnter =>
    simp only [update]
    split
    · next hc =>
      split
      · next row hrow => exact Or.inr (Or.inr ⟨by trivial, hc.1, hc.2, by rw [hrow]; rfl, rfl⟩)
      · exact Or.inl rfl
    · exact Or.inl rfl
  | keyTab =>
    simp only [update]
    split
    · exact Or.inl (setFocus_currentView _ _)
    · exact Or.inl rfl
  | keyNav k =>
    simp only [update]
    split
    · exact Or.inl (forwardNav_currentView _ _)
    · exact Or.inl rfl
  | keyQuit => exact Or.inl rfl
  | keyOther => exact Or.inl rfl
  | windowSize w h => exact Or.inl rfl
  | tick t => exact Or.inl rfl
  | statsDone r => exact Or.inl rfl
  | dnsCheck host status ifaces => exact Or.inl rfl
  | pingCheck host status ifaces => exact Or.inl rfl

/-- C4 — confirmed.  The only transition from the dashboard view into the
network-detail view is an `enter` delivered while the Network table is
focused with a selected row; the only transition back is `esc`; and those
events do perform the transitions (capturing the selected row's interface
name on entry). -/
theorem view_transition_only_enter_esc (msg : Msg) (m : Model) :
    (m.currentView = .dashboardView →
      (update msg m).1.currentView = .networkDetailView →
      msg = .keyEnter ∧ m.focusedTable = .netTableFocus ∧
        m.netTable.selectedRow?.isSome = true) ∧
    (m.currentView = .networkDetailView →
      (update msg m).1.currentView = .dashboardView → msg = .keyEsc) ∧
    (m.currentView = .networkDetailView →
      (update .keyEsc m).1.currentView = .dashboardView) ∧
    (∀ row, m.currentView = .dashboardView → m.focusedTable = .netTableFocus →
      m.netTable.selectedRow? = some row →
      (update .keyEnter m).1.currentView = .networkDetailView ∧
      (update .keyEnter m).1.selectedIface = row.iface) := by
  refine ⟨?_, ?_, ?_, ?_⟩
  · intro hv hv'
    rcases update_currentView_cases msg m with h | ⟨_, hdet, _⟩ | ⟨he, hft, _, hsel, _⟩
    · rw [h, hv] at hv'
      simp at hv'
    · rw [hv] at hdet
      simp at hdet
    · exact ⟨he, hft, hsel⟩
  · intro hv hv'
    rcases update_currentView_cases msg m with h | ⟨he, _, _⟩ | ⟨_, _, hdash, _, _⟩
    · rw [h, hv] at hv'
      simp at hv'
    · exact he
    · rw [hv] at hdash
      simp at hdash
  · intro hv
    simp only [update]
    rw [if_pos hv]
  · intro row hv hft hsel
    simp only [update]
    rw [if_pos ⟨hft, hv⟩, hsel]
    exact ⟨rfl, rfl⟩

/-- A dashboard model focused on the Network table with one selectable
row. -/
def netFocusModel : Model :=
  { initialModel with
      focusedTable := .netTableFocus
      netTable := { rows := [{ iface := "eth0", ipv4s := [], rx := 0, tx := 0 }],
                    cursor := 0, height := 6, focused := true }
      cpuTable := { initialModel.cpuTable with focused := false } }

/-- A model currently showing the network-detail view. -/
def detailModel : Model :=
  { initialModel with currentView := .networkDetailView }

/-- Witness for C4's theorem: `enter` on the Network-focused dashboard
enters the detail view capturing `"eth0"`, and `esc` leaves it. -/
theorem view_transition_only_enter_esc_witness :
    ((update .keyEnter netFocusModel).1.currentView = .networkDetailView ∧
      (update .keyEnter netFocusModel).1.selectedIface =
        NetRow.iface { iface := "eth0", ipv4s := [], rx := 0, tx := 0 }) ∧
      (update .keyEsc detailModel).1.currentView = .dashboardView :=
  ⟨(view_transition_only_enter_esc .keyEnter netFocusModel).2.2.2
      { iface := "eth0", ipv4s := [], rx := 0, tx := 0 } rfl rfl rfl,
    (view_transition_only_enter_esc .keyEsc detailModel).2.2.1 rfl⟩

/-- C10 — confirmed.  While the detail view is current, `tab`, every
navigation key, `enter` and any other unhandled key leave the entire model
unchanged and return no command; `q` leaves the model unchanged but quits;
only `esc` changes anything, switching back to the dashboard view. -/
theorem detail_view_frame (msg : Msg) (m : Model)
    (hv : m.currentView = .networkDetailView) :
    ((msg = .keyTab ∨ (∃ k, msg = .keyNav k) ∨ msg = .keyEnter ∨ msg = .keyOther) →
      update msg m = (m, .noCmd)) ∧
    update .keyQuit m = (m, .quitCmd) ∧
    (update .keyEsc m).1 = { m with currentView := .dashboardView } := by
  have hnd : ¬ m.currentView = .dashboardView := by
    rw [hv]
    simp
  refine ⟨?_, rfl, ?_⟩
  · rintro (rfl | ⟨k, rfl⟩ | rfl | rfl)
    · simp only [update]
      rw [if_neg hnd]
    · simp only [update]
      rw [if_neg hnd]
    · simp only [update]
      rw [if_neg fun hc => hnd hc.2]
    · rfl
  · simp only [update]
    rw [if_pos hv]

/-- Witness for C10's theorem at a concrete detail-view model. -/
theorem detail_view_frame_witness :
    update .keyTab detailModel = (detailModel, .noCmd) ∧
      update .keyQuit detailModel = (detailModel, .quitCmd) ∧
      (update .keyEsc detailModel).1 =
        { detailModel with currentView := .dashboardView } :=
  ⟨(detail_view_frame .keyTab detailModel rfl).1 (Or.inl rfl),
    (detail_view_frame .keyTab detailModel rfl).2.1,
    (detail_view_frame .keyTab detailModel rfl).2.2⟩

/-! ### Map-update lemmas -/

theorem lookupEntry_insertEntry {β : Type} (l : List (String × β)) (k k' : String)
    (v : β) :
    lookupEntry (insertEntry l k v) k' = if k = k' then some v else lookupEntry l k' := by
  induction l with
  | nil => simp [insertEntry, lookupEntry]
  | cons hd tl ih =>
    obtain ⟨k0, v0⟩ := hd
    by_cases h0 : k0 = k
    · subst h0
      by_cases h1 : k0 = k'
      · subst h1
        simp [insertEntry, lookupEntry]
      · simp [insertEntry, lookupEntry, h1]
    · by_cases h2 : k0 = k'
      · subst h2
        have h1 : ¬ k = k0 := fun hh => h0 hh.symm
        simp [insertEntry, lookupEntry, h0, h1]
      · simp [insertEntry, lookupEntry, h0, h2, ih]

theorem updateUsage_cons (base : List (String × UsageStat)) (p : PartitionStat)
    (rest : List PartitionStat) (fetch : String → Option UsageStat) :
    updateUsage base (p :: rest) fetch =
      updateUsage
        (match fetch p.mountpoint with
          | some u => insertEntry base p.mountpoint u
          | none => base)
        rest fetch := rfl

/-- A mount point whose fetch fails this tick is never inserted, so its
cached entry (or absence) survives the tick unchanged. -/
theorem updateUsage_lookup_of_fetch_none (ps : List PartitionStat)
    (base : List (String × UsageStat)) (fetch : String → Option UsageStat)
    (k : String) (hk : fetch k = none) :
    lookupEntry (updateUsage base ps fetch) k = lookupEntry base k := by
  induction ps generalizing base with
  | nil => rfl
  | cons p rest ih =>
    rw [updateUsage_cons]
    cases hp : fetch p.mountpoint with
    | none => exact ih base
    | some u =>
      have hne : p.mountpoint ≠ k := by
        intro hh
        rw [hh, hk] at hp
        cases hp
      rw [ih, lookupEntry_insertEntry, if_neg hne]

/-- A key carried by no listed partition is never inserted. -/
theorem updateUsage_lookup_of_not_mem (ps : List PartitionStat)
    (base : List (String × UsageStat)) (fetch : String → Option UsageStat)
    (k : String) (h : ∀ p ∈ ps, p.mountpoint ≠ k) :
    lookupEntry (updateUsage base ps fetch) k = lookupEntry base k := by
  induction ps generalizing base with
  | nil => rfl
  | cons p rest ih =>
    rw [updateUsage_cons]
    have hrest : ∀ q ∈ rest, q.mountpoint ≠ k := fun q hq => h q (List.mem_cons_of_mem _ hq)
    cases hp : fetch p.mountpoint with
    | none => exact ih base hrest
    | some u =>
      rw [ih _ hrest, lookupEntry_insertEntry, if_neg (h p (List.mem_cons_self _ _))]

/-- A mount point listed this tick whose fetch succeeds ends up in the map
with this tick's fetched usage. -/
theorem updateUsage_lookup_of_key (ps : List PartitionStat)
    (base : List (String × UsageStat)) (fetch : String → Option UsageStat)
    (k : String) (u : UsageStat) (hu : fetch k = some u)
    (hmem : ∃ p ∈ ps, p.mountpoint = k) :
    lookupEntry (updateUsage base ps fetch) k = some u := by
  induction ps generalizing base with
  | nil =>
    obtain ⟨p, hp, _⟩ := hmem
    cases hp
  | cons q rest ih =>
    rw [updateUsage_cons]
    by_cases hrest : ∃ p ∈ rest, p.mountpoint = k
    · exact ih _ hrest
    · obtain ⟨p, hp, hpk⟩ := hmem
      have hq : q.mountpoint = k := by
        rcases List.mem_cons.mp hp with rfl | hmem'
        · exact hpk
        · exact absurd ⟨p, hmem', hpk⟩ hrest
      have hnq : ∀ p ∈ rest, p.mountpoint ≠ k := fun p hp' hk' => hrest ⟨p, hp', hk'⟩
      rw [hq, hu]
      rw [updateUsage_lookup_of_not_mem rest _ fetch k hnq, lookupEntry_insertEntry,
        if_pos rfl]

theorem insertNetStats_cons (base : List (String × NetIOCountersStat))
    (x : NetIOCountersStat) (rest : List NetIOCountersStat) :
    insertNetStats base (x :: rest) = insertNetStats (insertEntry base x.name x) rest := rfl

/-- An interface name absent from this tick's counters keeps its old map
entry (or absence). -/
theorem insertNetStats_lookup_of_not_mem (stats : List NetIOCountersStat)
    (base : List (String × NetIOCountersStat)) (n : String)
    (h : ∀ s ∈ stats, s.name ≠ n) :
    lookupEntry (insertNetStats base stats) n = lookupEntry base n := by
  induction stats generalizing base with
  | nil => rfl
  | cons x rest ih =>
    rw [insertNetStats_cons]
    have hrest : ∀ s ∈ rest, s.name ≠ n := fun s hs => h s (List.mem_cons_of_mem _ hs)
    rw [ih _ hrest, lookupEntry_insertEntry, if_neg (h x (List.mem_cons_self _ _))]

/-- An interface name present in this tick's counters maps to one of this
tick's counter records. -/
theorem insertNetStats_lookup_of_key (stats : List NetIOCountersStat)
    (base : List (String × NetIOCountersStat)) (n : String)
    (h : ∃ s ∈ stats, s.name = n) :
    ∃ t ∈ stats, t.name = n ∧ lookupEntry (insertNetStats base stats) n = some t := by
  induction stats generalizing base with
  | nil =>
    obtain ⟨s, hs, _⟩ := h
    cases hs
  | cons x rest ih =>
    rw [insertNetStats_cons]
    by_cases hrest : ∃ s ∈ rest, s.name = n
    · obtain ⟨t, ht, htn, hlook⟩ := ih _ hrest
      exact ⟨t, List.mem_cons_of_mem _ ht, htn, hlook⟩
    · obtain ⟨s, hs, hsn⟩ := h
      have hx : x.name = n := by
        rcases List.mem_cons.mp hs with rfl | hmem'
        · exact hsn
        · exact absurd ⟨s, hmem', hsn⟩ hrest
      have hnr : ∀ s ∈ rest, s.name ≠ n := fun s hs' hn' => hrest ⟨s, hs', hn'⟩
      refine ⟨x, List.mem_cons_self _ _, hx, ?_⟩
      rw [insertNetStats_lookup_of_not_mem rest _ n hnr, lookupEntry_insertEntry, hx,
        if_pos rfl]

/-! ### C1 / C2: what one tick's `updateStats` publishes -/

theorem updateStats_cpuPercents (r : StatResults) (m : Model) :
    (updateStats r m).cpuPercents = (applyStats r m).cpuPercents := rfl

theorem updateStats_diskUsage (r : StatResults) (m : Model) :
    (updateStats r m).diskUsage = (applyStats r m).diskUsage := rfl

theorem updateStats_netStats (r : StatResults) (m : Model) :
    (updateStats r m).netStats = (applyStats r m).netStats := rfl

/-- C1 — corrected (amended form).  Each domain whose adapter succeeds this
tick is set wholesale to this tick's result, and the disk-usage and
network-stats maps hold this tick's successful per-key fetches.  (The claim
as stated fails: a domain whose adapter fails retains an earlier tick's
value — see the counterexample — and the two maps also retain entries from
earlier ticks.) -/
theorem updateStats_same_tick (r : StatResults) (m : Model) :
    (∀ v, r.cpuPercent = some v → (updateStats r m).cpuPercents = v) ∧
    (∀ v, r.loadAvg = some v → (updateStats r m).loadAvg = some v) ∧
    (∀ v, r.virtualMemory = some v → (updateStats r m).memory = some v) ∧
    (∀ v, r.swapMemory = some v → (updateStats r m).swap = some v) ∧
    (∀ v, r.diskIOCounters = some v → (updateStats r m).diskStats = v) ∧
    (∀ v, r.diskPartitions = some v → (updateStats r m).diskPartitions = v) ∧
    (∀ ps, r.diskPartitions = some ps → ∀ p ∈ ps, ∀ u,
      r.diskUsage p.mountpoint = some u →
      lookupEntry (updateStats r m).diskUsage p.mountpoint = some u) ∧
    (∀ stats, r.netIOCounters = some stats → ∀ s ∈ stats, ∃ t ∈ stats,
      t.name = s.name ∧ lookupEntry (updateStats r m).netStats s.name = some t) := by
  refine ⟨?_, ?_, ?_, ?_, ?_, ?_, ?_, ?_⟩
  · intro v hv
    simp [updateStats, updateTables, applyStats, hv]
  · intro v hv
    simp [updateStats, updateTables, applyStats, hv]
  · intro v hv
    simp [updateStats, updateTables, applyStats, hv]
  · intro v hv
    simp [updateStats, updateTables, applyStats, hv]
  · intro v hv
    simp [updateStats, updateTables, applyStats, hv]
  · intro v hv
    simp [updateStats, updateTables, applyStats, hv]
  · intro ps hps p hp u hu
    rw [updateStats_diskUsage]
    show lookupEntry
      (match r.diskPartitions with
        | some ps => updateUsage m.diskUsage ps r.diskUsage
        | none => m.diskUsage) p.mountpoint = some u
    rw [hps]
    exact updateUsage_lookup_of_key ps m.diskUsage r.diskUsage p.mountpoint u hu
      ⟨p, hp, rfl⟩
  · intro stats hstats s hs
    have := insertNetStats_lookup_of_key stats m.netStats s.name ⟨s, hs, rfl⟩
    obtain ⟨t, ht, htn, hlook⟩ := this
    refine ⟨t, ht, htn, ?_⟩
    rw [updateStats_netStats]
    show lookupEntry
      (match r.netIOCounters with
        | some stats => insertNetStats m.netStats stats
        | none => m.netStats) s.name = some t
    rw [hstats]
    exact hlook

/-- A sample tick in which every adapter succeeds. -/
def envAllChecked : StatResults where
  cpuPercent := some [10]
  loadAvg := some ⟨1, 2, 3⟩
  virtualMemory := some ⟨4, 16, 25⟩
  swapMemory := some ⟨1, 8, 25 / 2⟩
  diskIOCounters := some [("sda", ⟨1, 2⟩)]
  diskPartitions := some [⟨"sda1", "/"⟩]
  diskUsage := fun s => if s = "/" then some ⟨50, 100, 50⟩ else none
  netIOCounters := some [⟨"eth0", 100, 200, 10, 20, 0, 0, 0, 0⟩]
  interfaces := []

/-- A sample tick in which every adapter fails. -/
def envAllFailed : StatResults where
  cpuPercent := none
  loadAvg := none
  virtualMemory := none
  swapMemory := none
  diskIOCounters := none
  diskPartitions := none
  diskUsage := fun _ => none
  netIOCounters := none
  interfaces := []

/-- Witness for C1's amended theorem at concrete adapter results. -/
theorem updateStats_same_tick_witness :
    (updateStats envAllChecked initialModel).cpuPercents = [10] ∧
      (updateStats envAllChecked initialModel).memory = some ⟨4, 16, 25⟩ ∧
      lookupEntry (updateStats envAllChecked initialModel).diskUsage "/" =
        some ⟨50, 100, 50⟩ :=
  ⟨(updateStats_same_tick envAllChecked initialModel).1 [10] rfl,
    (updateStats_same_tick envAllChecked initialModel).2.2.1 ⟨4, 16, 25⟩ rfl,
    (updateStats_same_tick envAllChecked initialModel).2.2.2.2.2.2.1
      [⟨"sda1", "/"⟩] rfl ⟨"sda1", "/"⟩ (List.mem_singleton.mpr rfl) ⟨50, 100, 50⟩
      (by simp [envAllChecked])⟩

/-- Counterexample for C1 as stated: in a second tick whose CPU adapter
fails, the published snapshot's CPU field still holds the first tick's
`[10]` — a value produced by an earlier tick's invocation, not by this
tick's (which produced nothing). -/
theorem cross_tick_mixing_cex :
    envAllFailed.cpuPercent = none ∧
      (updateStats envAllFailed (updateStats envAllChecked initialModel)).cpuPercents =
        [10] ∧
      (updateStats envAllFailed (updateStats envAllChecked initialModel)).cpuPercents ≠
        [] := by
  refine ⟨rfl, rfl, ?_⟩
  decide

/-- C2 — corrected (amended form).  A failing adapter's domain is not
emptied: it retains the previously published value for that domain (the
initial value being empty), and the failure does not disturb any other
domain; `updateStats` is total, so the tick always completes. -/
theorem adapter_failure_retains (r : StatResults) (m : Model) :
    (r.cpuPercent = none → (updateStats r m).cpuPercents = m.cpuPercents) ∧
    (r.loadAvg = none → (updateStats r m).loadAvg = m.loadAvg) ∧
    (r.virtualMemory = none → (updateStats r m).memory = m.memory) ∧
    (r.swapMemory = none → (updateStats r m).swap = m.swap) ∧
    (r.diskIOCounters = none → (updateStats r m).diskStats = m.diskStats) ∧
    (r.diskPartitions = none → (updateStats r m).diskPartitions = m.diskPartitions ∧
      (updateStats r m).diskUsage = m.diskUsage) ∧
    (r.netIOCounters = none → (updateStats r m).netStats = m.netStats) ∧
    (∀ k, r.diskUsage k = none →
      lookupEntry (updateStats r m).diskUsage k = lookupEntry m.diskUsage k) := by
  refine ⟨?_, ?_, ?_, ?_, ?_, ?_, ?_, ?_⟩
  · intro hv
    simp [updateStats, updateTables, applyStats, hv]
  · intro hv
    simp [updateStats, updateTables, applyStats, hv]
  · intro hv
    simp [updateStats, updateTables, applyStats, hv]
  · intro hv
    simp [updateStats, updateTables, applyStats, hv]
  · intro hv
    simp [updateStats, updateTables, applyStats, hv]
  · intro hv
    constructor
    · simp [updateStats, updateTables, applyStats, hv]
    · rw [updateStats_diskUsage]
      show (match r.diskPartitions with
        | some ps => updateUsage m.diskUsage ps r.diskUsage
        | none => m.diskUsage) = m.diskUsage
      rw [hv]
  · intro hv
    rw [updateStats_netStats]
    show (match r.netIOCounters with
      | some stats => insertNetStats m.netStats stats
      | none => m.netStats) = m.netStats
    rw [hv]
  · intro k hk
    rw [updateStats_diskUsage]
    show lookupEntry
      (match r.diskPartitions with
        | some ps => updateUsage m.diskUsage ps r.diskUsage
        | none => m.diskUsage) k = lookupEntry m.diskUsage k
    cases hps : r.diskPartitions with
    | none => rfl
    | some ps => exact updateUsage_lookup_of_fetch_none ps m.diskUsage r.diskUsage k hk

/-- Witness for C2's amended theorem: after a successful first tick, a tick
in which every adapter fails retains all previously published values. -/
theorem adapter_failure_retains_witness :
    (updateStats envAllFailed (updateStats envAllChecked initialModel)).cpuPercents =
        (updateStats envAllChecked initialModel).cpuPercents ∧
      (updateStats envAllFailed (updateStats envAllChecked initialModel)).memory =
        (updateStats envAllChecked initialModel).memory ∧
      (updateStats envAllFailed (updateStats envAllChecked initialModel)).netStats =
        (updateStats envAllChecked initialModel).netStats :=
  ⟨(adapter_failure_retains envAllFailed (updateStats envAllChecked initialModel)).1 rfl,
    (adapter_failure_retains envAllFailed
      (updateStats envAllChecked initialModel)).2.2.1 rfl,
    (adapter_failure_retains envAllFailed
      (updateStats envAllChecked initialModel)).2.2.2.2.2.2.1 rfl⟩

/-- Counterexample for C2 as stated: the swap adapter fails in the second
tick, yet the published snapshot's swap domain is not absent/empty — it
still holds the first tick's value. -/
theorem adapter_failure_not_absent_cex :
    envAllFailed.swapMemory = none ∧
      (updateStats envAllFailed (updateStats envAllChecked initialModel)).swap =
        some ⟨1, 8, 25 / 2⟩ ∧
      (updateStats envAllFailed (updateStats envAllChecked initialModel)).swap ≠
        none := by
  refine ⟨rfl, rfl, ?_⟩
  decide

/-! ### C6: presence/absence of mount points in the disk table -/

theorem updateStats_diskTable_rows (r : StatResults) (m : Model) :
    (updateStats r m).diskTable.rows = diskRowsOf (applyStats r m) := rfl

theorem applyStats_diskPartitions_of_some (r : StatResults) (m : Model)
    (ps : List PartitionStat) (hps : r.diskPartitions = some ps) :
    (applyStats r m).diskPartitions = ps := by
  simp [applyStats, hps]

theorem applyStats_diskUsage_of_some (r : StatResults) (m : Model)
    (ps : List PartitionStat) (hps : r.diskPartitions = some ps) :
    (applyStats r m).diskUsage = updateUsage m.diskUsage ps r.diskUsage := by
  simp [applyStats, hps]

/-- C6 — corrected (amended form).  For a tick that lists partition `p`:
if the usage fetch for `p`'s mount point succeeds, the published disk table
contains `p`'s row built from this tick's usage; if the fetch fails and no
usage for that mount point is cached from an earlier tick, the mount point
is excluded.  (The claim as stated fails: a failed fetch does not exclude a
mount point whose usage was cached by an earlier tick — see the
counterexample.) -/
theorem disk_usage_presence (r : StatResults) (m : Model) (ps : List PartitionStat)
    (hps : r.diskPartitions = some ps) (p : PartitionStat) (hp : p ∈ ps) :
    (∀ u, r.diskUsage p.mountpoint = some u →
      ({ device := p.device, mount := p.mountpoint, used := u.used, total := u.total,
         usedPercent := round1 u.usedPercent } : DiskRow) ∈
        (updateStats r m).diskTable.rows) ∧
    (r.diskUsage p.mountpoint = none →
      lookupEntry m.diskUsage p.mountpoint = none →
      ∀ row ∈ (updateStats r m).diskTable.rows, row.mount ≠ p.mountpoint) := by
  constructor
  · intro u hu
    rw [updateStats_diskTable_rows]
    unfold diskRowsOf
    rw [(List.perm_insertionSort diskRowGE _).mem_iff]
    unfold diskRowsRaw
    rw [applyStats_diskPartitions_of_some r m ps hps,
      applyStats_diskUsage_of_some r m ps hps]
    refine List.mem_filterMap.mpr ⟨p, hp, ?_⟩
    rw [updateUsage_lookup_of_key ps m.diskUsage r.diskUsage p.mountpoint u hu
      ⟨p, hp, rfl⟩]
    rfl
  · intro hu hcache row hrow
    rw [updateStats_diskTable_rows] at hrow
    unfold diskRowsOf at hrow
    rw [(List.perm_insertionSort diskRowGE _).mem_iff] at hrow
    unfold diskRowsRaw at hrow
    rw [applyStats_diskPartitions_of_some r m ps hps,
      applyStats_diskUsage_of_some r m ps hps] at hrow
    obtain ⟨q, hq, hval⟩ := List.mem_filterMap.mp hrow
    cases hlook : lookupEntry (updateUsage m.diskUsage ps r.diskUsage) q.mountpoint with
    | none =>
      rw [hlook] at hval
      cases hval
    | some uq =>
      rw [hlook] at hval
      cases hval
      intro hmount
      have : lookupEntry (updateUsage m.diskUsage ps r.diskUsage) p.mountpoint = none := by
        rw [updateUsage_lookup_of_fetch_none ps m.diskUsage r.diskUsage p.mountpoint hu]
        exact hcache
      rw [show q.mountpoint = p.mountpoint from hmount] at hlook
      rw [this] at hlook
      cases hlook

/-- The first tick for the stale-mount counterexample: `/mnt/broken` is
listed and its usage fetch succeeds. -/
def envBrokenOk : StatResults where
  cpuPercent := none
  loadAvg := none
  virtualMemory := none
  swapMemory := none
  diskIOCounters := none
  diskPartitions := some [⟨"sdb", "/mnt/broken"⟩]
  diskUsage := fun s => if s = "/mnt/broken" then some ⟨5, 10, 50⟩ else none
  netIOCounters := none
  interfaces := []

/-- The second tick: `/mnt/broken` is still listed but its usage fetch now
errors. -/
def envBrokenFail : StatResults where
  cpuPercent := none
  loadAvg := none
  virtualMemory := none
  swapMemory := none
  diskIOCounters := none
  diskPartitions := some [⟨"sdb", "/mnt/broken"⟩]
  diskUsage := fun _ => none
  netIOCounters := none
  interfaces := []

/-- Counterexample for C6 as stated: on the second tick the usage fetch for
`/mnt/broken` errors, yet the disk table published for that tick still
contains a row for `/mnt/broken` (built from the first tick's cached
usage). -/
theorem broken_mount_stale_cex :
    envBrokenFail.diskUsage "/mnt/broken" = none ∧
      ∃ row ∈ (updateStats envBrokenFail
          (updateStats envBrokenOk initialModel)).diskTable.rows,
        row.mount = "/mnt/broken" := by
  refine ⟨rfl, ?_⟩
  exact ⟨{ device := "sdb", mount := "/mnt/broken", used := 5, total := 10,
           usedPercent := round1 50 }, List.mem_singleton.mpr rfl, rfl⟩

/-- Witness for C6's amended theorem: a succeeding fetch lands in the
table, and a failing fetch with no cached entry is excluded. -/
theorem disk_usage_presence_witness :
    (({ device := "sdb", mount := "/mnt/broken", used := 5, total := 10,
        usedPercent := round1 50 } : DiskRow) ∈
      (updateStats envBrokenOk initialModel).diskTable.rows) ∧
      ∀ row ∈ (updateStats envBrokenFail initialModel).diskTable.rows,
        row.mount ≠ PartitionStat.mountpoint ⟨"sdb", "/mnt/broken"⟩ :=
  ⟨(disk_usage_presence envBrokenOk initialModel [⟨"sdb", "/mnt/broken"⟩] rfl
      ⟨"sdb", "/mnt/broken"⟩ (List.mem_singleton.mpr rfl)).1 ⟨5, 10, 50⟩
      (by simp [envBrokenOk]),
    (disk_usage_presence envBrokenFail initialModel [⟨"sdb", "/mnt/broken"⟩] rfl
      ⟨"sdb", "/mnt/broken"⟩ (List.mem_singleton.mpr rfl)).2 rfl rfl⟩

/-! ### C7: the disk table is sorted descending by usage percentage -/

theorem updateTables_diskTable_rows (ifaces : List NetIface) (m : Model) :
    (updateTables ifaces m).diskTable.rows = diskRowsOf m := rfl

/-- C7 — confirmed.  After every table refresh the disk table's rows are in
non-increasing order of the percentage carried by their `Used%` cell: every
row's percentage is at least the following row's. -/
theorem disk_rows_sorted (ifaces : List NetIface) (m : Model) (i : ℕ)
    (h : i + 1 < (updateTables ifaces m).diskTable.rows.length) :
    ((updateTables ifaces m).diskTable.rows.get ⟨i + 1, h⟩).usedPercent ≤
      ((updateTables ifaces m).diskTable.rows.get ⟨i, Nat.lt_of_succ_lt h⟩).usedPercent := by
  have hs : List.Sorted diskRowGE ((updateTables ifaces m).diskTable.rows) := by
    rw [updateTables_diskTable_rows]
    exact List.sorted_insertionSort diskRowGE (diskRowsRaw m)
  exact hs.rel_get_of_lt (Fin.mk_lt_mk.mpr (Nat.lt_succ_self i))

/-- A model holding two mounted partitions with cached usages. -/
def twoDiskModel : Model :=
  { initialModel with
      diskPartitions := [⟨"sda", "/"⟩, ⟨"sdb", "/data"⟩]
      diskUsage := [("/", ⟨1, 10, 10⟩), ("/data", ⟨9, 10, 90⟩)] }

/-- The concrete disk table of `twoDiskModel` has two rows. -/
theorem twoDisk_rows_two :
    1 < (updateTables [] twoDiskModel).diskTable.rows.length := by
  rw [updateTables_diskTable_rows]
  unfold diskRowsOf
  rw [List.length_insertionSort]
  exact Nat.one_lt_two

/-- Witness for C7's theorem on a concrete two-row disk table. -/
theorem disk_rows_sorted_witness :
    ((updateTables [] twoDiskModel).diskTable.rows.get ⟨1, twoDisk_rows_two⟩).usedPercent ≤
      ((updateTables [] twoDiskModel).diskTable.rows.get
        ⟨0, Nat.lt_of_succ_lt twoDisk_rows_two⟩).usedPercent :=
  disk_rows_sorted [] twoDiskModel 0 twoDisk_rows_two

/-! ### C8: the layout threshold of `dashboard.go` -/

/-- Counterexample for C8 as stated: at width 100 — strictly below the
threshold of 170 — the rendered layout still joins the CPU and Memory
sections horizontally, so the dashboard does not stack its sections
vertically. -/
theorem vertical_layout_cex :
    100 < minColumnWidth * 2 ∧
      Layout.verticalOnly (dashboardViewLayout 100) = false := by
  exact ⟨by decide, rfl⟩

/-- C8 — corrected (amended form).  For any nonzero width below the
170-cell threshold the dashboard stacks the top row (CPU and Memory joined
horizontally), the Disk section and the Network section vertically; at or
above the threshold the Disk and Network sections share a horizontal bottom
row.  CPU and Memory are adjacent in both layouts; width 0 renders a
loading placeholder instead. -/
theorem layout_threshold (w : ℕ) (hw : 0 < w) :
    (w < minColumnWidth * 2 →
      dashboardViewLayout w =
        .vjoin (.hjoin (.leaf .cpu) (.leaf .mem))
          (.vjoin (.leaf .disks) (.leaf .net))) ∧
    (minColumnWidth * 2 ≤ w →
      dashboardViewLayout w =
        .vjoin (.hjoin (.leaf .cpu) (.leaf .mem))
          (.hjoin (.leaf .disks) (.leaf .net))) := by
  have h0 : ¬ w = 0 := Nat.pos_iff_ne_zero.mp hw
  constructor
  · intro hlt
    unfold dashboardViewLayout
    rw [if_neg h0]
    simp only
    rw [if_pos hlt]
  · intro hge
    unfold dashboardViewLayout
    rw [if_neg h0]
    simp only
    rw [if_neg (Nat.not_lt.mpr hge)]

/-- Witness for C8's amended theorem at widths 100 and 200. -/
theorem layout_threshold_witness :
    dashboardViewLayout 100 =
        .vjoin (.hjoin (.leaf .cpu) (.leaf .mem))
          (.vjoin (.leaf .disks) (.leaf .net)) ∧
      dashboardViewLayout 200 =
        .vjoin (.hjoin (.leaf .cpu) (.leaf .mem))
          (.hjoin (.leaf .disks) (.leaf .net)) :=
  ⟨(layout_threshold 100 (by decide)).1 (by decide),
    (layout_threshold 200 (by decide)).2 (by decide)⟩

/-! ### C9: the `processes[:20]` slice -/

/-- C9 — confirmed.  `showProcessInfo` renders exactly the first 20 entries
of the CPU-sorted process list; the slice expression is in range precisely
when at least 20 processes exist, and with fewer the access is out of
range (a run-time panic in Go). -/
theorem show_process_top20 (ps : List ProcessInfo) :
    (ps.length < 20 → showProcessRows ps = none) ∧
    (20 ≤ ps.length →
      showProcessRows ps = some (((sortByCpu ps).take 20).map mkProcRow) ∧
      (((sortByCpu ps).take 20).map mkProcRow).length = 20) := by
  have hlen : (sortByCpu ps).length = ps.length :=
    List.length_insertionSort procGE ps
  constructor
  · intro hlt
    unfold showProcessRows sliceTo
    rw [hlen, if_neg (Nat.not_le.mpr hlt)]
    rfl
  · intro hge
    refine ⟨?_, ?_⟩
    · unfold showProcessRows sliceTo
      rw [hlen, if_pos hge]
      rfl
    · rw [List.length_map, List.length_take, hlen]
      exact Nat.min_eq_left hge

/-- A sample process for the C9 witness. -/
def sampleProc : ProcessInfo :=
  { pid := 1, name := "systemd", cpuPercent := 2, memPercent := 1,
    status := "S", username := "root", cmdline := "/sbin/init" }

/-- Witness for C9's theorem: a 20-element list is sliced in full, an empty
list makes the slice out of range. -/
theorem show_process_top20_witness :
    showProcessRows [] = none ∧
      showProcessRows (List.replicate 20 sampleProc) =
        some (((sortByCpu (List.replicate 20 sampleProc)).take 20).map mkProcRow) :=
  ⟨(show_process_top20 []).1 (by decide),
    ((show_process_top20 (List.replicate 20 sampleProc)).2 (by decide)).1⟩

end Systat
